import Mathlib

/-!
Verification of the market_momentum repository's core:
`src/scripts/indicators.py` (the five indicator analyzers) and
`src/scripts/backtesting_stock_analysis.py` (score-table builder,
position selector, and backtest simulator).

Modelling conventions:
- prices, volumes, scores and money are rationals (`ℚ`);
- dates are naturals (the price index is ordered by date);
- a pandas DataFrame of price bars is a `List Bar` ordered by date;
- the external `ta` library's indicator computations (EMA, RSI, ADX,
  Donchian bands, rolling volume mean) are not part of this repository:
  they are supplied as a parameter bundle `TA` of total functions mapping
  a price history to the indicator series (same length as the data, so
  the negative-index reads performed after the length guards are in
  range); the analyzers only read the last one or two values;
- a Python exception escaping a call is an `Except.error`; the per-date
  score computation that `load_and_score_stock_data` wraps in
  `try/except` is a parameter returning `Except String ℚ`;
- `df.loc[:d]` and `df.loc[a:b]` label slices on the sorted date index
  are list filters by date; `.values[0]` on a possibly-empty selection
  is an `Option` lookup whose `none` case propagates as an
  `IndexError`-style `Except.error`.
-/

/-- One row of a price CSV: `{Date, Open, High, Low, Close, Volume}`. -/
structure Bar where
  date : Nat
  opn : ℚ
  high : ℚ
  low : ℚ
  close : ℚ
  volume : ℚ
deriving DecidableEq

/-- One row of the score table built by `load_and_score_stock_data`:
`{Date, Symbol, Score}`. -/
structure ScoreRow where
  date : Nat
  symbol : String
  score : ℚ
deriving DecidableEq

/-- One row of the investment log written by `backtest`:
`{Date, Symbol, Action, Shares, Exit Price, Investment Value}`.
The action is the literal string the source writes
(only two ever occur: "Stop-Loss" and "Reevaluate"). -/
structure LedgerEntry where
  date : Nat
  symbol : String
  action : String
  shares : ℚ
  exitPrice : ℚ
  investmentValue : ℚ
deriving DecidableEq

/-- The indicator series the `ta` library computes, as a parameter
bundle: each field maps a price history to the full indicator series. -/
structure TA where
  ema20 : List Bar → List ℚ
  ema50 : List Bar → List ℚ
  rsi : List Bar → List ℚ
  adx : List Bar → List ℚ
  adxPos : List Bar → List ℚ
  adxNeg : List Bar → List ℚ
  hband : List Bar → List ℚ
  lband : List Bar → List ℚ
  avgVol : List Bar → List ℚ

/-- `s.iloc[-1]`: the last value of a series (0 when out of range; the
source only reads it after a length guard that makes it in range). -/
def last1 (s : List ℚ) : ℚ := s.getLast?.getD 0

/-- `s.iloc[-2]`: the second-to-last value of a series. -/
def last2 (s : List ℚ) : ℚ := s.dropLast.getLast?.getD 0

/-- `data['Close']`. -/
def closes (data : List Bar) : List ℚ := data.map Bar.close

/-- `data['Volume']`. -/
def vols (data : List Bar) : List ℚ := data.map Bar.volume

/-- `indicators.analyze_ema`: EMA(20)/EMA(50) crossover signal. -/
def analyze_ema (ta : TA) (data : List Bar) : ℚ × Option ℚ × Option ℚ :=
  let s := ta.ema20 data
  let l := ta.ema50 data
  if 50 ≤ data.length then
    if last1 l < last1 s ∧ last2 s < last2 l then
      (5, some (last1 (closes data)), none)
    else if last1 s < last1 l ∧ last2 l < last2 s then
      (1, none, some (last1 (closes data)))
    else if last1 l < last1 s then
      (4, some (last1 (closes data)), none)
    else
      (2, none, some (last1 (closes data)))
  else (3, none, none)

/-- `indicators.analyze_rsi`: RSI(14) divergence / threshold signal. -/
def analyze_rsi (ta : TA) (data : List Bar) : ℚ × Option ℚ × Option ℚ :=
  let r := ta.rsi data
  if 14 ≤ data.length then
    if last1 (closes data) < last2 (closes data) ∧ last2 r < last1 r then
      (5, some (last1 (closes data)), none)
    else if last2 (closes data) < last1 (closes data) ∧ last1 r < last2 r then
      (1, none, some (last1 (closes data)))
    else if last1 r < 30 then
      (4, some (last1 (closes data)), none)
    else if 70 < last1 r then
      (2, none, some (last1 (closes data)))
    else (3, none, none)
  else (3, none, none)

/-- `indicators.analyze_adx`: ADX(14) trend-strength signal. -/
def analyze_adx (ta : TA) (data : List Bar) : ℚ × Option ℚ × Option ℚ :=
  if 14 ≤ data.length then
    if 25 < last1 (ta.adx data) then
      if last1 (ta.adxNeg data) < last1 (ta.adxPos data) then
        (5, some (last1 (closes data)), none)
      else
        (1, none, some (last1 (closes data)))
    else if last1 (ta.adx data) < 20 then (3, none, none)
    else (3, none, none)
  else (3, none, none)

/-- `indicators.analyze_donchian`: 20-period channel breakout signal
(compared against the prior bar's band values). -/
def analyze_donchian (ta : TA) (data : List Bar) : ℚ × Option ℚ × Option ℚ :=
  if 20 ≤ data.length then
    if last2 (ta.hband data) < last1 (closes data) then
      (5, some (last1 (closes data)), none)
    else if last1 (closes data) < last2 (ta.lband data) then
      (1, none, some (last1 (closes data)))
    else (3, none, none)
  else (3, none, none)

/-- `indicators.analyze_volume`: price move confirmed by volume above
its 20-period rolling mean. -/
def analyze_volume (ta : TA) (data : List Bar) : ℚ × Option ℚ × Option ℚ :=
  if 20 ≤ data.length then
    if last2 (closes data) < last1 (closes data) ∧
        last1 (ta.avgVol data) < last1 (vols data) then
      (5, some (last1 (closes data)), none)
    else if last1 (closes data) < last2 (closes data) ∧
        last1 (ta.avgVol data) < last1 (vols data) then
      (1, none, some (last1 (closes data)))
    else (3, none, none)
  else (3, none, none)

/-- The everywhere-empty indicator series. -/
def emptySeries : List Bar → List ℚ := fun _ => []

/-- A constant one-value indicator series. -/
def constSeries (q : ℚ) : List Bar → List ℚ := fun _ => [q]

/-- A `TA` bundle whose every series is empty; used to instantiate the
parametric analyzers at concrete inputs. -/
def taZero : TA :=
  ⟨emptySeries, emptySeries, emptySeries, emptySeries, emptySeries,
   emptySeries, emptySeries, emptySeries, emptySeries⟩

/-- Claim C5: every analyzer, on a history shorter than its minimum
length (50 bars for EMA, 14 for RSI and ADX, 20 for Donchian and
Volume), returns exactly the neutral score 3 with both price hints
`none`, as a normal return value. -/
theorem short_history_neutral (ta : TA) (data : List Bar) :
    (data.length < 50 → analyze_ema ta data = (3, none, none)) ∧
    (data.length < 14 → analyze_rsi ta data = (3, none, none)) ∧
    (data.length < 14 → analyze_adx ta data = (3, none, none)) ∧
    (data.length < 20 → analyze_donchian ta data = (3, none, none)) ∧
    (data.length < 20 → analyze_volume ta data = (3, none, none)) := by
  refine ⟨fun h => ?_, fun h => ?_, fun h => ?_, fun h => ?_, fun h => ?_⟩
  · rw [analyze_ema, if_neg (by omega)]
  · rw [analyze_rsi, if_neg (by omega)]
  · rw [analyze_adx, if_neg (by omega)]
  · rw [analyze_donchian, if_neg (by omega)]
  · rw [analyze_volume, if_neg (by omega)]

/-- Concrete instance of claim C5 at the empty history. -/
theorem short_history_neutral_witness :
    analyze_ema taZero [] = (3, none, none) ∧
    analyze_rsi taZero [] = (3, none, none) ∧
    analyze_adx taZero [] = (3, none, none) ∧
    analyze_donchian taZero [] = (3, none, none) ∧
    analyze_volume taZero [] = (3, none, none) := by
  have h := short_history_neutral taZero []
  exact ⟨h.1 (by decide), h.2.1 (by decide), h.2.2.1 (by decide),
    h.2.2.2.1 (by decide), h.2.2.2.2 (by decide)⟩

/-- Claim C7: on a history of at least 14 bars the ADX analyzer returns
5 with entry = latest close when ADX > 25 and +DI > −DI, returns 1 with
exit = latest close when ADX > 25 and −DI ≥ +DI, and returns 3 with both
prices null whenever ADX ≤ 25 (the whole band [20, 25] included). -/
theorem analyze_adx_cases (ta : TA) (data : List Bar)
    (hlen : 14 ≤ data.length) :
    (25 < last1 (ta.adx data) →
      last1 (ta.adxNeg data) < last1 (ta.adxPos data) →
      analyze_adx ta data = (5, some (last1 (closes data)), none)) ∧
    (25 < last1 (ta.adx data) →
      last1 (ta.adxPos data) ≤ last1 (ta.adxNeg data) →
      analyze_adx ta data = (1, none, some (last1 (closes data)))) ∧
    (last1 (ta.adx data) ≤ 25 →
      analyze_adx ta data = (3, none, none)) := by
  refine ⟨fun h25 hdi => ?_, fun h25 hdi => ?_, fun h25 => ?_⟩
  · rw [analyze_adx, if_pos hlen, if_pos h25, if_pos hdi]
  · rw [analyze_adx, if_pos hlen, if_pos h25, if_neg (not_lt.mpr hdi)]
  · rw [analyze_adx, if_pos hlen, if_neg (not_lt.mpr h25)]
    by_cases h20 : last1 (ta.adx data) < 20
    · rw [if_pos h20]
    · rw [if_neg h20]

/-- A 14-bar constant history used to instantiate claim C7. -/
def barsAdx : List Bar := (List.range 14).map (fun i => ⟨i + 1, 1, 1, 1, 1, 1⟩)

/-- A `TA` bundle with a constant strong upward-trend ADX reading. -/
def taAdx : TA :=
  ⟨emptySeries, emptySeries, emptySeries, constSeries 30, constSeries 2,
   constSeries 1, emptySeries, emptySeries, emptySeries⟩

/-- Concrete instance of claim C7: ADX 30 > 25 with +DI 2 > −DI 1 on a
14-bar history yields score 5 with entry = latest close. -/
theorem analyze_adx_cases_witness :
    analyze_adx taAdx barsAdx = (5, some 1, none) := by
  have h := (analyze_adx_cases taAdx barsAdx
    (by simp [barsAdx])).1 (by norm_num [taAdx, constSeries, last1])
    (by norm_num [taAdx, constSeries, last1])
  simpa [barsAdx, closes, last1] using h

/-- The composite score of `load_and_score_stock_data`: the arithmetic
mean of the five analyzer scores. -/
def scoreOfTA (ta : TA) (data : List Bar) : ℚ :=
  ((analyze_ema ta data).1 + (analyze_rsi ta data).1 + (analyze_adx ta data).1 +
    (analyze_donchian ta data).1 + (analyze_volume ta data).1) / 5

/-- The per-date score computation of `load_and_score_stock_data` when
the five analyzer calls raise no exception: always `Except.ok`. -/
def taScore (ta : TA) : String → List Bar → Except String ℚ :=
  fun _ l => Except.ok (scoreOfTA ta l)

/-- `stock_data[(stock_data.index >= start_date) & (stock_data.index <= end_date)]`. -/
def rangeFilter (sd ed : Nat) (data : List Bar) : List Bar :=
  data.filter (fun b => decide (sd ≤ b.date) && decide (b.date ≤ ed))

/-- `stock_data.loc[:date]` on the date-sorted index. -/
def prefixTo (d : Nat) (l : List Bar) : List Bar :=
  l.filter (fun b => decide (b.date ≤ d))

/-- The per-instrument loop body of `load_and_score_stock_data`:
range-filter the data, skip the instrument when fewer than 50 bars
remain, then for each remaining date score the prefix up to that date
when it holds at least 50 bars, dropping the date (the `except` branch)
when the score computation raises. -/
def scoreRowsFor (scoreAt : String → List Bar → Except String ℚ)
    (symbol : String) (data : List Bar) (sd ed : Nat) : List ScoreRow :=
  let filtered := rangeFilter sd ed data
  if filtered.length < 50 then []
  else filtered.filterMap (fun b =>
    if 50 ≤ (prefixTo b.date filtered).length then
      match scoreAt symbol (prefixTo b.date filtered) with
      | Except.ok s => some ⟨b.date, symbol, s⟩
      | Except.error _ => none
    else none)

/-- `load_and_score_stock_data`: the score table over all instruments. -/
def load_and_score_stock_data (scoreAt : String → List Bar → Except String ℚ)
    (files : List (String × List Bar)) (sd ed : Nat) : List ScoreRow :=
  files.flatMap (fun f => scoreRowsFor scoreAt f.1 f.2 sd ed)

/-- Characterization of the rows one instrument contributes. -/
theorem mem_scoreRowsFor (scoreAt : String → List Bar → Except String ℚ)
    (sym : String) (data : List Bar) (sd ed : Nat) (r : ScoreRow) :
    r ∈ scoreRowsFor scoreAt sym data sd ed ↔
    ∃ b ∈ rangeFilter sd ed data,
      r.date = b.date ∧ r.symbol = sym ∧
      50 ≤ (prefixTo b.date (rangeFilter sd ed data)).length ∧
      scoreAt sym (prefixTo b.date (rangeFilter sd ed data)) = Except.ok r.score := by
  rw [scoreRowsFor]
  by_cases hF : (rangeFilter sd ed data).length < 50
  · rw [if_pos hF]
    simp only [List.not_mem_nil, false_iff]
    rintro ⟨b, _, _, _, hlen, _⟩
    have hle : (prefixTo b.date (rangeFilter sd ed data)).length ≤
        (rangeFilter sd ed data).length := List.length_filter_le _ _
    omega
  · rw [if_neg hF, List.mem_filterMap]
    constructor
    · rintro ⟨b, hb, hfb⟩
      by_cases hlen : 50 ≤ (prefixTo b.date (rangeFilter sd ed data)).length
      · rw [if_pos hlen] at hfb
        cases hok : scoreAt sym (prefixTo b.date (rangeFilter sd ed data)) with
        | ok s =>
          rw [hok] at hfb
          obtain rfl : (⟨b.date, sym, s⟩ : ScoreRow) = r := Option.some_injective _ hfb
          exact ⟨b, hb, rfl, rfl, hlen, hok⟩
        | error e =>
          rw [hok] at hfb
          exact absurd hfb (by simp)
      · rw [if_neg hlen] at hfb
        exact absurd hfb (by simp)
    · rintro ⟨b, hb, hdate, hsym, hlen, hok⟩
      refine ⟨b, hb, ?_⟩
      rw [if_pos hlen, hok]
      obtain ⟨rd, rs, rsc⟩ := r
      simp only at hdate hsym
      rw [hdate, hsym]

/-- A table row comes from some instrument's file. -/
theorem mem_load_and_score (scoreAt : String → List Bar → Except String ℚ)
    (files : List (String × List Bar)) (sd ed : Nat) (r : ScoreRow) :
    r ∈ load_and_score_stock_data scoreAt files sd ed ↔
    ∃ p ∈ files, r ∈ scoreRowsFor scoreAt p.1 p.2 sd ed := by
  rw [load_and_score_stock_data, List.mem_flatMap]

/-- Claim C4 (amended): a row is in the score table exactly when its own
instrument's score computation on its own prefix succeeded with at least
50 bars; an error raised for some (instrument, date) pair removes only
the row of that pair — every other date of the same instrument and every
other instrument is scored as if the error had not occurred, and the
build always returns this full table rather than aborting. -/
theorem score_error_isolated (scoreAt : String → List Bar → Except String ℚ)
    (files : List (String × List Bar)) (sd ed : Nat) (r : ScoreRow) :
    r ∈ load_and_score_stock_data scoreAt files sd ed ↔
    ∃ p ∈ files, p.1 = r.symbol ∧ ∃ b ∈ rangeFilter sd ed p.2,
      r.date = b.date ∧
      50 ≤ (prefixTo b.date (rangeFilter sd ed p.2)).length ∧
      scoreAt r.symbol (prefixTo b.date (rangeFilter sd ed p.2)) = Except.ok r.score := by
  rw [mem_load_and_score]
  constructor
  · rintro ⟨p, hp, hr⟩
    rw [mem_scoreRowsFor] at hr
    obtain ⟨b, hb, hdate, hsym, hlen, hok⟩ := hr
    exact ⟨p, hp, hsym.symm, b, hb, hdate, hlen, by rw [← hsym] at hok; exact hok⟩
  · rintro ⟨p, hp, hsym, b, hb, hdate, hlen, hok⟩
    refine ⟨p, hp, ?_⟩
    rw [mem_scoreRowsFor]
    exact ⟨b, hb, hdate, hsym.symm, hlen, by rw [hsym]; exact hok⟩

/-- A 51-bar history, dates 1..51, all prices and volumes 1. -/
def mkBars (n : Nat) : List Bar := (List.range n).map (fun i => ⟨i + 1, 1, 1, 1, 1, 1⟩)

/-- A score computation that raises exactly on a 50-bar prefix (i.e. on
date 50 of `mkBars 51`) and succeeds everywhere else. -/
def scoreAtBad : String → List Bar → Except String ℚ :=
  fun _ l => if l.length == 50 then Except.error "e" else Except.ok 0

/-- Counterexample to claim C4 as stated: instrument "A"'s score
computation raises on date 50, yet "A" is not skipped for the run — the
table still contains its date-51 row. Only the failing date is dropped,
not the instrument. -/
theorem score_error_skips_date_not_instrument :
    load_and_score_stock_data scoreAtBad [("A", mkBars 51)] 0 100 = [⟨51, "A", 0⟩] ∧
    scoreAtBad "A" (prefixTo 50 (rangeFilter 0 100 (mkBars 51))) = Except.error "e" := by
  constructor <;> rfl

/-- Claim C3: with all analyzer calls succeeding, the table has a row
for (instrument, date) exactly when the date is one of the instrument's
bar dates inside the range and at least 50 bars lie at or before it; the
emitted score is computed from exactly the bars at or before that date,
so any change to the data that leaves that prefix intact (in particular
mutating bars strictly after the date) leaves the score unchanged. -/
theorem score_table_emission (ta : TA) (files : List (String × List Bar))
    (sd ed : Nat) (sym : String) (data : List Bar) (d : Nat)
    (hmem : (sym, data) ∈ files)
    (huniq : ∀ p ∈ files, p.1 = sym → p.2 = data) :
    ((∃ s, (⟨d, sym, s⟩ : ScoreRow) ∈
        load_and_score_stock_data (taScore ta) files sd ed) ↔
      (d ∈ (rangeFilter sd ed data).map Bar.date ∧
        50 ≤ (prefixTo d (rangeFilter sd ed data)).length)) ∧
    (∀ s, (⟨d, sym, s⟩ : ScoreRow) ∈
        load_and_score_stock_data (taScore ta) files sd ed →
      s = scoreOfTA ta (prefixTo d (rangeFilter sd ed data))) ∧
    (∀ (data2 : List Bar) (s : ℚ),
      prefixTo d (rangeFilter sd ed data2) = prefixTo d (rangeFilter sd ed data) →
      (⟨d, sym, s⟩ : ScoreRow) ∈ scoreRowsFor (taScore ta) sym data2 sd ed →
      s = scoreOfTA ta (prefixTo d (rangeFilter sd ed data))) := by
  have hchar : ∀ (data' : List Bar) (s : ℚ),
      (⟨d, sym, s⟩ : ScoreRow) ∈ scoreRowsFor (taScore ta) sym data' sd ed →
      d ∈ (rangeFilter sd ed data').map Bar.date ∧
        50 ≤ (prefixTo d (rangeFilter sd ed data')).length ∧
        s = scoreOfTA ta (prefixTo d (rangeFilter sd ed data')) := by
    intro data' s hs
    rw [mem_scoreRowsFor] at hs
    obtain ⟨b, hb, hdate, _, hlen, hok⟩ := hs
    simp only at hdate
    have hokd : Except.ok (scoreOfTA ta (prefixTo b.date (rangeFilter sd ed data'))) =
        Except.ok s := hok
    refine ⟨List.mem_map.mpr ⟨b, hb, hdate.symm⟩, ?_, ?_⟩
    · rw [hdate]; exact hlen
    · rw [hdate]; exact (Except.ok.injEq _ _ ▸ hokd).symm
  refine ⟨⟨?_, ?_⟩, ?_, ?_⟩
  · rintro ⟨s, hs⟩
    rw [mem_load_and_score] at hs
    obtain ⟨p, hp, hrow⟩ := hs
    have hsym : p.1 = sym := by
      rw [mem_scoreRowsFor] at hrow
      obtain ⟨b, _, _, hsym, _, _⟩ := hrow
      exact hsym.symm
    have hdata : p.2 = data := huniq p hp hsym
    rw [hsym, hdata] at hrow
    exact ⟨(hchar data s hrow).1, (hchar data s hrow).2.1⟩
  · rintro ⟨hd, hlen⟩
    obtain ⟨b, hb, hbd⟩ := List.mem_map.mp hd
    refine ⟨scoreOfTA ta (prefixTo d (rangeFilter sd ed data)), ?_⟩
    rw [mem_load_and_score]
    refine ⟨(sym, data), hmem, ?_⟩
    rw [mem_scoreRowsFor]
    exact ⟨b, hb, hbd.symm, rfl, by rw [hbd]; exact hlen, by rw [hbd]; rfl⟩
  · intro s hs
    rw [mem_load_and_score] at hs
    obtain ⟨p, hp, hrow⟩ := hs
    have hsym : p.1 = sym := by
      rw [mem_scoreRowsFor] at hrow
      obtain ⟨b, _, _, hsym, _, _⟩ := hrow
      exact hsym.symm
    have hdata : p.2 = data := huniq p hp hsym
    rw [hsym, hdata] at hrow
    exact (hchar data s hrow).2.2
  · intro data2 s hpre hs
    have h := (hchar data2 s hs).2.2
    rw [hpre] at h
    exact h

/-- Concrete instance of claim C3: emission for instrument "A" at
date 51 of a 51-bar history. -/
theorem score_table_emission_witness :
    (∃ s, (⟨51, "A", s⟩ : ScoreRow) ∈
        load_and_score_stock_data (taScore taZero) [("A", mkBars 51)] 0 100) ↔
      (51 ∈ (rangeFilter 0 100 (mkBars 51)).map Bar.date ∧
        50 ≤ (prefixTo 51 (rangeFilter 0 100 (mkBars 51))).length) :=
  (score_table_emission taZero [("A", mkBars 51)] 0 100 "A" (mkBars 51) 51
    (by simp)
    (by intro p hp _; rw [List.mem_singleton] at hp; rw [hp])).1

/-- `get_best_stock`: keep the rows for the date, sort by score
descending and take the top row; an empty day yields `(None, None)`.
The sort is modelled by a fold keeping the first row attaining the
maximum score — a deterministic tie-break, as is pandas' (its sorting
algorithm is unspecified for ties but contains no randomness). -/
def get_best_stock (date : Nat) (stock_scores : List ScoreRow) :
    Option String × Option ℚ :=
  match stock_scores.filter (fun r => r.date == date) with
  | [] => (none, none)
  | r :: rs =>
    let best := rs.foldl (fun a b => if a.score < b.score then b else a) r
    (some best.symbol, some best.score)

/-- The fold used by `get_best_stock` returns a row whose score bounds
the initial row and every listed row. -/
theorem foldl_pick_max (rs : List ScoreRow) (a : ScoreRow) :
    a.score ≤ (rs.foldl (fun a b => if a.score < b.score then b else a) a).score ∧
    ∀ x ∈ rs, x.score ≤ (rs.foldl (fun a b => if a.score < b.score then b else a) a).score := by
  induction rs generalizing a with
  | nil => exact ⟨le_refl _, by simp⟩
  | cons b t ih =>
    have h1 : a.score ≤ (if a.score < b.score then b else a).score := by
      by_cases h : a.score < b.score
      · rw [if_pos h]; exact le_of_lt h
      · rw [if_neg h]
    have h2 : b.score ≤ (if a.score < b.score then b else a).score := by
      by_cases h : a.score < b.score
      · rw [if_pos h]
      · rw [if_neg h]; exact le_of_not_lt h
    simp only [List.foldl_cons]
    refine ⟨le_trans h1 (ih _).1, ?_⟩
    intro x hx
    rcases List.mem_cons.mp hx with rfl | hx
    · exact le_trans h2 (ih _).1
    · exact (ih _).2 x hx

/-- Claim C8: the position selector is deterministic — on equal tables
(ties at the maximum included) the two runs return the same pair — and
the score it returns bounds every row of that date, so the returned
pair is a maximum-score row. -/
theorem get_best_stock_deterministic (d : Nat) (s1 s2 : List ScoreRow)
    (h : s1 = s2) :
    get_best_stock d s1 = get_best_stock d s2 ∧
    ∀ r ∈ s1.filter (fun x => x.date == d), ∀ m,
      (get_best_stock d s1).2 = some m → r.score ≤ m := by
  subst h
  refine ⟨rfl, ?_⟩
  intro r hr m hm
  rw [get_best_stock] at hm
  cases hfl : s1.filter (fun x => x.date == d) with
  | nil => rw [hfl] at hr; exact absurd hr (List.not_mem_nil r)
  | cons a t =>
    rw [hfl] at hm hr
    simp only [Option.some.injEq] at hm
    rw [← hm]
    rcases List.mem_cons.mp hr with rfl | hr
    · exact (foldl_pick_max t r).1
    · exact (foldl_pick_max t a).2 r hr

/-- Concrete instance of claim C8: two instruments tie at the maximum
score; both runs return the same pair (the first maximal row). -/
theorem get_best_stock_deterministic_witness :
    get_best_stock 1 [⟨1, "A", 5⟩, ⟨1, "B", 5⟩] =
      get_best_stock 1 [⟨1, "A", 5⟩, ⟨1, "B", 5⟩] ∧
    get_best_stock 1 [⟨1, "A", 5⟩, ⟨1, "B", 5⟩] = (some "A", some 5) :=
  ⟨(get_best_stock_deterministic 1 [⟨1, "A", 5⟩, ⟨1, "B", 5⟩]
      [⟨1, "A", 5⟩, ⟨1, "B", 5⟩] rfl).1, by rfl⟩

/-- `stock_data.loc[stock_data.index == d, 'Open'].values[0]` as an
`Option`: `none` models the `IndexError` raised on an empty selection. -/
def openOn (bars : List Bar) (d : Nat) : Option ℚ :=
  ((bars.filter (fun b => b.date == d)).head?).map Bar.opn

/-- `stock_data.loc[cur:hi]` on the sorted date index. -/
def window (bars : List Bar) (lo hi : Nat) : List Bar :=
  bars.filter (fun b => decide (lo ≤ b.date) && decide (b.date ≤ hi))

/-- The stop price `entry_price * (1 - stop_loss)`. -/
def stopPrice (entry sl : ℚ) : ℚ := entry * (1 - sl)

/-- The mutable locals of `backtest`'s while-loop:
`current_investment`, `current_stock`, `current_shares`, `entry_price`
(which persists across periods) and `current_date`. `entry_price` is
unassigned before the first switch; it is modelled as 0, a value the
source never reads (the first selected instrument always differs from
the initial `None` position, so a switch assigns it first). -/
structure BState where
  inv : ℚ
  stock : Option String
  shares : ℚ
  entry : ℚ
  cur : Nat
deriving DecidableEq

/-- One iteration of `backtest`'s while-loop (one reevaluation period):
select the best instrument (skip the period when there is none or its
data is empty), switch into it at the day's opening price when it
differs from the held one, scan the period's window for the first
intraday low at or below the stop price — on a breach exit at exactly
the stop price, log a `Stop-Loss` entry, re-select and re-enter at the
breach date's opening price and stop scanning — then unconditionally
mark to market at the opening price of the period's end date, log a
`Reevaluate` entry, and advance the date by the period. A failed
`.values[0]` lookup is the `IndexError` the source leaves unhandled. -/
def backtest_step (scores : List ScoreRow) (data : String → List Bar)
    (stop_loss : ℚ) (period : Nat) (st : BState) :
    Except String (BState × List LedgerEntry) :=
  match (get_best_stock st.cur scores).1 with
  | none => Except.ok (⟨st.inv, st.stock, st.shares, st.entry, st.cur + period⟩, [])
  | some best =>
    if data best = [] then
      Except.ok (⟨st.inv, st.stock, st.shares, st.entry, st.cur + period⟩, [])
    else
      match (if st.stock = some best then some (st.entry, st.shares)
             else (openOn (data best) st.cur).map (fun p => (p, st.inv / p))) with
      | none => Except.error "IndexError: entry date not in index"
      | some (entry, shares) =>
        match (window (data best) st.cur (st.cur + period)).find?
            (fun b => decide (b.low ≤ stopPrice entry stop_loss)) with
        | none =>
          match openOn (data best) (st.cur + period) with
          | none => Except.error "IndexError: reevaluation date not in index"
          | some rp =>
            Except.ok (⟨shares * rp, some best, shares, entry, st.cur + period⟩,
              [⟨st.cur + period, best, "Reevaluate", shares, rp, shares * rp⟩])
        | some b =>
          match (get_best_stock b.date scores).1 with
          | none => Except.error "IndexError: entry date not in index"
          | some s2 =>
            match openOn (data s2) b.date with
            | none => Except.error "IndexError: entry date not in index"
            | some p2 =>
              match openOn (data s2) (st.cur + period) with
              | none => Except.error "IndexError: reevaluation date not in index"
              | some rp =>
                Except.ok
                  (⟨shares * stopPrice entry stop_loss / p2 * rp, some s2,
                      shares * stopPrice entry stop_loss / p2, p2, st.cur + period⟩,
                    [⟨b.date, best, "Stop-Loss", shares, stopPrice entry stop_loss,
                        shares * stopPrice entry stop_loss⟩,
                      ⟨st.cur + period, s2, "Reevaluate",
                        shares * stopPrice entry stop_loss / p2, rp,
                        shares * stopPrice entry stop_loss / p2 * rp⟩])

/-- `backtest`'s while-loop, fuelled: the fuel only bounds the number of
iterations (`backtest` passes one more than the largest date, enough for
any positive period since every iteration advances the date by the
period). -/
def backtest_loop (scores : List ScoreRow) (data : String → List Bar)
    (stop_loss : ℚ) (period : Nat) (maxD : Nat) :
    Nat → BState → Except String (List LedgerEntry)
  | 0, _ => Except.ok []
  | fuel + 1, st =>
    if st.cur ≤ maxD then
      match backtest_step scores data stop_loss period st with
      | Except.error e => Except.error e
      | Except.ok (st2, es) =>
        match backtest_loop scores data stop_loss period maxD fuel st2 with
        | Except.error e => Except.error e
        | Except.ok rest => Except.ok (es ++ rest)
    else Except.ok []

/-- `backtest`: run the while-loop from the table's earliest date to its
latest (an empty table runs zero iterations, as NaN bounds fail the
loop condition in the source), starting with no position and the whole
initial investment. The investment log is the concatenation of each
period's appended entries, in order. -/
def backtest (stock_scores : List ScoreRow) (data : String → List Bar)
    (initial_investment stop_loss : ℚ) (reevaluation_period : Nat) :
    Except String (List LedgerEntry) :=
  match stock_scores.map ScoreRow.date with
  | [] => Except.ok []
  | d :: ds =>
    backtest_loop stock_scores data stop_loss reevaluation_period
      (ds.foldl Nat.max d) (ds.foldl Nat.max d + 1)
      ⟨initial_investment, none, 0, 0, ds.foldl Nat.min d⟩

/-- Claim C9: a date with no score-table row makes `get_best_stock`
return the `(None, None)` sentinel rather than raise, and a period whose
selection returns the sentinel is skipped: the date advances by exactly
the reevaluation period, no ledger entry is appended, and the
investment, position, shares and entry price are all unchanged. -/
theorem no_candidate_skips_period (d : Nat) (ss scores : List ScoreRow)
    (data : String → List Bar) (sl : ℚ) (period : Nat) (st : BState) :
    (ss.filter (fun r => r.date == d) = [] → get_best_stock d ss = (none, none)) ∧
    ((get_best_stock st.cur scores).1 = none →
      backtest_step scores data sl period st =
        Except.ok (⟨st.inv, st.stock, st.shares, st.entry, st.cur + period⟩, [])) := by
  constructor
  · intro h
    rw [get_best_stock, h]
  · intro h
    rw [backtest_step, h]

/-- Concrete instance of claim C9: an empty table at date 7. -/
theorem no_candidate_skips_period_witness :
    get_best_stock 7 [] = (none, none) ∧
    backtest_step [] (fun _ => []) (1/20) 14 ⟨50000, none, 0, 0, 7⟩ =
      Except.ok (⟨50000, none, 0, 0, 21⟩, []) :=
  ⟨(no_candidate_skips_period 7 [] [] (fun _ => []) (1/20) 14
      ⟨50000, none, 0, 0, 7⟩).1 rfl,
    (no_candidate_skips_period 7 [] [] (fun _ => []) (1/20) 14
      ⟨50000, none, 0, 0, 7⟩).2 rfl⟩

/-- Claim C6: holding `best`, the first day of the monitoring window
whose intraday low is at or below the stop price exits at exactly the
computed stop price (not the bar's low): the portfolio becomes
shares × stopPrice, a `Stop-Loss` entry is logged for the breach date, a
new position is selected and opened at the breach date's opening price
within the same period, and the scan stops — the single `Stop-Loss`
entry is followed only by the period-end `Reevaluate` entry. -/
theorem stop_loss_exact_exit (scores : List ScoreRow) (data : String → List Bar)
    (sl : ℚ) (period : Nat) (st : BState) (best s2 : String) (b : Bar) (p2 rp : ℚ)
    (hbest : (get_best_stock st.cur scores).1 = some best)
    (hdata : data best ≠ [])
    (hhold : st.stock = some best)
    (hfind : (window (data best) st.cur (st.cur + period)).find?
        (fun x => decide (x.low ≤ stopPrice st.entry sl)) = some b)
    (hsel2 : (get_best_stock b.date scores).1 = some s2)
    (hopen2 : openOn (data s2) b.date = some p2)
    (hre : openOn (data s2) (st.cur + period) = some rp) :
    backtest_step scores data sl period st = Except.ok
      (⟨st.shares * stopPrice st.entry sl / p2 * rp, some s2,
          st.shares * stopPrice st.entry sl / p2, p2, st.cur + period⟩,
        [⟨b.date, best, "Stop-Loss", st.shares, stopPrice st.entry sl,
            st.shares * stopPrice st.entry sl⟩,
          ⟨st.cur + period, s2, "Reevaluate", st.shares * stopPrice st.entry sl / p2,
            rp, st.shares * stopPrice st.entry sl / p2 * rp⟩]) := by
  simp only [backtest_step, hbest, if_neg hdata, hhold, if_true, hfind, hsel2,
    hopen2, hre]

/-- The price history used by the concrete stop-loss scenarios: entry at
100 on day 1, a breach of the 5% stop (95) with a low of 90 on day 3,
and a period-end bar on day 15 opening at 96. -/
def barsC1 : List Bar :=
  [⟨1, 100, 100, 100, 100, 1⟩, ⟨2, 99, 99, 98, 99, 1⟩,
   ⟨3, 96, 96, 90, 92, 1⟩, ⟨15, 96, 97, 96, 96, 1⟩]

/-- Score rows putting "A" on top on day 1 and on the breach day 3. -/
def scoresC1 : List ScoreRow := [⟨1, "A", 5⟩, ⟨3, "A", 5⟩]

/-- The data folder for the stop-loss scenarios: only "A" exists. -/
def dataC1 : String → List Bar := fun s => if s = "A" then barsC1 else []

/-- Concrete instance of claim C6: the day-3 breach (low 90 ≤ 95) held
from entry 100 exits at exactly 95 and re-enters at day 3's open. -/
theorem stop_loss_exact_exit_witness :
    backtest_step scoresC1 dataC1 (1/20) 14 ⟨50000, some "A", 500, 100, 1⟩ =
      Except.ok
        (⟨500 * stopPrice 100 (1/20) / 96 * 96, some "A",
            500 * stopPrice 100 (1/20) / 96, 96, 15⟩,
          [⟨3, "A", "Stop-Loss", 500, stopPrice 100 (1/20),
              500 * stopPrice 100 (1/20)⟩,
            ⟨15, "A", "Reevaluate", 500 * stopPrice 100 (1/20) / 96, 96,
              500 * stopPrice 100 (1/20) / 96 * 96⟩]) :=
  stop_loss_exact_exit scoresC1 dataC1 (1/20) 14 ⟨50000, some "A", 500, 100, 1⟩
    "A" "A" ⟨3, 96, 96, 90, 92, 1⟩ 96 96 (by with_unfolding_all decide)
    (by with_unfolding_all decide) (by with_unfolding_all decide)
    (by with_unfolding_all decide) (by with_unfolding_all decide)
    (by with_unfolding_all decide) (by with_unfolding_all decide)

/-- A flat price history: no stop-loss breach ever fires. -/
def barsFlat : List Bar :=
  [⟨1, 100, 100, 100, 100, 1⟩, ⟨15, 100, 100, 100, 100, 1⟩]

/-- A one-row score table putting "A" on top on day 1. -/
def scoresC2 : List ScoreRow := [⟨1, "A", 5⟩]

/-- The data folder for the flat scenario: only "A" exists. -/
def dataC2 : String → List Bar := fun s => if s = "A" then barsFlat else []

/-- Claim C2 (amended): entering or switching (selected instrument
differs from the held one, including from no position) opens the new
position at that date's opening price with shares = portfolioValue /
entryPrice — but appends no `Switch` ledger entry; the switch is only
printed to the console, and the period's appended entries (here the
single period-end `Reevaluate`) never carry a `Switch` action. -/
theorem switch_not_logged (scores : List ScoreRow)
    (data : String → List Bar) (sl : ℚ) (period : Nat) (st : BState)
    (best : String) (p rp : ℚ)
    (hbest : (get_best_stock st.cur scores).1 = some best)
    (hdata : data best ≠ [])
    (hdiff : st.stock ≠ some best)
    (hopen : openOn (data best) st.cur = some p)
    (hnofind : (window (data best) st.cur (st.cur + period)).find?
        (fun x => decide (x.low ≤ stopPrice p sl)) = none)
    (hre : openOn (data best) (st.cur + period) = some rp) :
    backtest_step scores data sl period st = Except.ok
      (⟨st.inv / p * rp, some best, st.inv / p, p, st.cur + period⟩,
        [⟨st.cur + period, best, "Reevaluate", st.inv / p, rp, st.inv / p * rp⟩]) ∧
    ∀ e ∈ [(⟨st.cur + period, best, "Reevaluate", st.inv / p, rp,
        st.inv / p * rp⟩ : LedgerEntry)], e.action ≠ "Switch" := by
  constructor
  · simp only [backtest_step, hbest, if_neg hdata, if_neg hdiff, hopen,
      Option.map_some', hnofind, hre]
  · intro e he
    rw [List.mem_singleton] at he
    subst he
    exact (by decide : ("Reevaluate" : String) ≠ "Switch")

/-- Concrete instance of claim C2 (amended): entering "A" from no
position at day 1's open of 100 with 500 shares, no `Switch` logged. -/
theorem switch_not_logged_witness :
    backtest_step scoresC2 dataC2 (1/20) 14 ⟨50000, none, 0, 0, 1⟩ = Except.ok
      (⟨50000 / 100 * 100, some "A", 50000 / 100, 100, 15⟩,
        [⟨15, "A", "Reevaluate", 50000 / 100, 100, 50000 / 100 * 100⟩]) ∧
    ∀ e ∈ [(⟨15, "A", "Reevaluate", (50000 : ℚ) / 100, 100,
        50000 / 100 * 100⟩ : LedgerEntry)], e.action ≠ "Switch" :=
  switch_not_logged scoresC2 dataC2 (1/20) 14 ⟨50000, none, 0, 0, 1⟩ "A" 100 100
    (by with_unfolding_all decide) (by with_unfolding_all decide)
    (by with_unfolding_all decide) (by with_unfolding_all decide)
    (by with_unfolding_all decide) (by with_unfolding_all decide)

/-- Counterexample to claim C2 as stated: a full run that enters a
position (500 shares of "A" at 100, visible in the lone ledger row)
whose investment log contains no `Switch` entry at all — the source
never appends one. -/
theorem switch_entry_never_logged :
    backtest scoresC2 dataC2 50000 (1/20) 14 =
      Except.ok [⟨15, "A", "Reevaluate", 500, 100, 50000⟩] ∧
    ∀ e ∈ [(⟨15, "A", "Reevaluate", (500 : ℚ), 100, 50000⟩ : LedgerEntry)],
      e.action ≠ "Switch" := by
  constructor
  · with_unfolding_all rfl
  · intro e he
    rw [List.mem_singleton] at he
    subst he
    decide

/-- The data folder whose "A" lacks the period-end date 15. -/
def dataE1 : String → List Bar :=
  fun s => if s = "A" then [⟨1, 100, 100, 100, 100, 1⟩] else []

/-- The data folder whose "A" lacks the entry date 1. -/
def dataE2 : String → List Bar :=
  fun s => if s = "A" then [⟨2, 100, 100, 100, 100, 1⟩] else []

/-- Claim C10: `backtest` is partial — whenever the period's end date is
absent from the held instrument's index the mark-to-market lookup
indexes an empty selection and the run aborts with the unhandled error;
concretely, a table whose only instrument lacks the period-end date
aborts, and one whose instrument lacks the entry date aborts at the
switch lookup. -/
theorem backtest_raises_on_missing_dates (scores : List ScoreRow)
    (data : String → List Bar) (sl : ℚ) (period : Nat) (st : BState) (best : String)
    (hbest : (get_best_stock st.cur scores).1 = some best)
    (hdata : data best ≠ [])
    (hhold : st.stock = some best)
    (hnofind : (window (data best) st.cur (st.cur + period)).find?
        (fun x => decide (x.low ≤ stopPrice st.entry sl)) = none)
    (hre : openOn (data best) (st.cur + period) = none) :
    backtest_step scores data sl period st =
      Except.error "IndexError: reevaluation date not in index" ∧
    backtest scoresC2 dataE1 50000 (1/20) 14 =
      Except.error "IndexError: reevaluation date not in index" ∧
    backtest scoresC2 dataE2 50000 (1/20) 14 =
      Except.error "IndexError: entry date not in index" := by
  refine ⟨?_, ?_, ?_⟩
  · simp only [backtest_step, hbest, if_neg hdata, if_pos hhold, hnofind, hre]
  · with_unfolding_all rfl
  · with_unfolding_all rfl

/-- Concrete instance of claim C10: holding "A" with only a day-1 bar,
the day-15 mark-to-market lookup aborts the run. -/
theorem backtest_raises_on_missing_dates_witness :
    backtest_step scoresC2 dataE1 (1/20) 14 ⟨50000, some "A", 500, 100, 1⟩ =
      Except.error "IndexError: reevaluation date not in index" :=
  (backtest_raises_on_missing_dates scoresC2 dataE1 (1/20) 14
    ⟨50000, some "A", 500, 100, 1⟩ "A" (by with_unfolding_all decide)
    (by with_unfolding_all decide) (by with_unfolding_all decide)
    (by with_unfolding_all decide) (by with_unfolding_all decide)).1

/-- Claim C1 (amended): every period in which a position is held (a
candidate was selected with non-empty data and the run does not abort)
appends a `Reevaluate` entry dated at the period's end — whether or not
a stop-loss fired, since the mark-to-market append is unconditional
after the monitoring scan; when a stop-loss fired while holding, the
appended entries also contain a `Stop-Loss` entry dated at the breach
day, before the period-end `Reevaluate`. -/
theorem reevaluate_logged_every_period (scores : List ScoreRow)
    (data : String → List Bar) (sl : ℚ) (period : Nat) (st st2 : BState)
    (best : String) (es : List LedgerEntry)
    (hbest : (get_best_stock st.cur scores).1 = some best)
    (hdata : data best ≠ [])
    (hstep : backtest_step scores data sl period st = Except.ok (st2, es)) :
    (∃ e, es.getLast? = some e ∧ e.action = "Reevaluate" ∧
      e.date = st.cur + period) ∧
    (∀ b : Bar, st.stock = some best →
      (window (data best) st.cur (st.cur + period)).find?
          (fun x => decide (x.low ≤ stopPrice st.entry sl)) = some b →
      ∃ e ∈ es, e.action = "Stop-Loss" ∧ e.date = b.date) := by
  by_cases hhold : st.stock = some best
  · simp only [backtest_step, hbest, if_neg hdata, if_pos hhold] at hstep
    cases hfind : (window (data best) st.cur (st.cur + period)).find?
        (fun x => decide (x.low ≤ stopPrice st.entry sl)) with
    | none =>
      simp only [hfind] at hstep
      cases hre : openOn (data best) (st.cur + period) with
      | none =>
        simp only [hre] at hstep
        exact Except.noConfusion hstep
      | some rp =>
        simp only [hre, Except.ok.injEq, Prod.mk.injEq] at hstep
        obtain ⟨-, hes⟩ := hstep
        subst hes
        refine ⟨⟨_, rfl, rfl, rfl⟩, ?_⟩
        intro b _ hfb
        exact absurd hfb (by simp)
    | some b0 =>
      simp only [hfind] at hstep
      cases hsel2 : (get_best_stock b0.date scores).1 with
      | none =>
        simp only [hsel2] at hstep
        exact Except.noConfusion hstep
      | some s2 =>
        cases hopen2 : openOn (data s2) b0.date with
        | none =>
          simp only [hsel2, hopen2] at hstep
          exact Except.noConfusion hstep
        | some p2 =>
          cases hre : openOn (data s2) (st.cur + period) with
          | none =>
            simp only [hsel2, hopen2, hre] at hstep
            exact Except.noConfusion hstep
          | some rp =>
            simp only [hsel2, hopen2, hre, Except.ok.injEq, Prod.mk.injEq] at hstep
            obtain ⟨-, hes⟩ := hstep
            subst hes
            refine ⟨⟨_, rfl, rfl, rfl⟩, ?_⟩
            intro b _ hfb
            obtain rfl : b0 = b := Option.some.inj hfb
            exact ⟨_, List.mem_cons_self _ _, rfl, rfl⟩
  · simp only [backtest_step, hbest, if_neg hdata, if_neg hhold] at hstep
    cases hop : openOn (data best) st.cur with
    | none =>
      simp only [hop, Option.map_none'] at hstep
      exact Except.noConfusion hstep
    | some p =>
      simp only [hop, Option.map_some'] at hstep
      cases hfind : (window (data best) st.cur (st.cur + period)).find?
          (fun x => decide (x.low ≤ stopPrice p sl)) with
      | none =>
        simp only [hfind] at hstep
        cases hre : openOn (data best) (st.cur + period) with
        | none =>
          simp only [hre] at hstep
          exact Except.noConfusion hstep
        | some rp =>
          simp only [hre, Except.ok.injEq, Prod.mk.injEq] at hstep
          obtain ⟨-, hes⟩ := hstep
          subst hes
          exact ⟨⟨_, rfl, rfl, rfl⟩, fun b hh _ => absurd hh hhold⟩
      | some b0 =>
        simp only [hfind] at hstep
        cases hsel2 : (get_best_stock b0.date scores).1 with
        | none =>
          simp only [hsel2] at hstep
          exact Except.noConfusion hstep
        | some s2 =>
          cases hopen2 : openOn (data s2) b0.date with
          | none =>
            simp only [hsel2, hopen2] at hstep
            exact Except.noConfusion hstep
          | some p2 =>
            cases hre : openOn (data s2) (st.cur + period) with
            | none =>
              simp only [hsel2, hopen2, hre] at hstep
              exact Except.noConfusion hstep
            | some rp =>
              simp only [hsel2, hopen2, hre, Except.ok.injEq, Prod.mk.injEq] at hstep
              obtain ⟨-, hes⟩ := hstep
              subst hes
              exact ⟨⟨_, rfl, rfl, rfl⟩, fun b hh _ => absurd hh hhold⟩

/-- Concrete instance of claim C1 (amended): a held flat period logs its
period-end `Reevaluate` entry. -/
theorem reevaluate_logged_every_period_witness :
    ∃ e, ([⟨15, "A", "Reevaluate", (500 : ℚ), 100, 50000⟩] :
        List LedgerEntry).getLast? = some e ∧
      e.action = "Reevaluate" ∧ e.date = 1 + 14 :=
  (reevaluate_logged_every_period scoresC2 dataC2 (1/20) 14
    ⟨50000, none, 0, 0, 1⟩ ⟨50000, some "A", 500, 100, 15⟩ "A"
    [⟨15, "A", "Reevaluate", 500, 100, 50000⟩]
    (by with_unfolding_all decide) (by with_unfolding_all decide)
    (by with_unfolding_all rfl)).1

/-- Counterexample to claim C1 as stated: a run whose first period fires
the stop-loss on day 3 (the `Stop-Loss` entry) and still appends a
`Reevaluate` entry dated at that same period's end date 15 — the
mark-to-market append after the monitoring scan is unconditional, so a
stop-loss period is not exempt from it. -/
theorem stoploss_period_still_reevaluates :
    (backtest scoresC1 dataC1 50000 (1/20) 14).map
        (fun l => l.map (fun e => (e.date, e.action))) =
      Except.ok [(3, "Stop-Loss"), (15, "Reevaluate")] := by
  with_unfolding_all rfl

/-- Concrete instance of claim C4 (amended): the date-51 row of "A" is
in the table because its own prefix scored successfully, independently
of the error raised on date 50. -/
theorem score_error_isolated_witness :
    (⟨51, "A", (0 : ℚ)⟩ : ScoreRow) ∈
      load_and_score_stock_data scoreAtBad [("A", mkBars 51)] 0 100 := by
  refine (score_error_isolated scoreAtBad [("A", mkBars 51)] 0 100
    ⟨51, "A", 0⟩).mpr ?_
  exact ⟨("A", mkBars 51), by simp, rfl, ⟨51, 1, 1, 1, 1, 1⟩, by decide, rfl,
    by decide, rfl⟩
